import Mathlib

/-!
Shallow embedding of the hub-shuttle streaming and reconciliation core
(packages/hub-shuttle/dist/index.mjs): byte-string encoders, the protobuf
message model and body codec, the idempotent upsert with the
lifecycle-change conflict predicate, the transactional merge dispatcher,
the checkpoint store, and the per-fid reconciler, together with theorems
about them.
-/

namespace HubShuttle

/-- Hexadecimal digit character for a value below 16, lowercase as produced
by Buffer.toString with the hex codec. -/
def hexDigit (n : Nat) : Char :=
  if n < 10 then Char.ofNat (48 + n) else Char.ofNat (97 + (n - 10))

/-- Two-character lowercase hexadecimal rendering of one byte. -/
def byteToHex (b : Nat) : String :=
  String.mk [hexDigit (b / 16 % 16), hexDigit (b % 16)]

/-- Embedding of bytesToHex from src/utils.ts: a 0x-tagged hexadecimal
rendering of a byte string. Bytes are modelled as natural numbers below 256. -/
def bytesToHex (bs : List Nat) : String :=
  "0x" ++ String.join (bs.map byteToHex)

/-- Base58 alphabet used by the bs58 encoder underlying the hub SDK. -/
def base58Alphabet : List Char :=
  "123456789ABCDEFGHJKLMNPQRSTUVWXYZabcdefghijkmnopqrstuvwxyz".toList

/-- Character of one base58 digit. -/
def base58Digit (n : Nat) : Char := base58Alphabet.getD n '1'

/-- Fuelled base58 digit production, most significant digit first.  Fuel
n + 1 is always enough since the value shrinks at every step. -/
def natToBase58Go (fuel n : Nat) (acc : List Char) : List Char :=
  match fuel with
  | 0 => acc
  | f + 1 => if n = 0 then acc else natToBase58Go f (n / 58) (base58Digit (n % 58) :: acc)

/-- Modelled from the spec: bytesToBase58 of the hub SDK (the SDK package is
part of the repository but not under the provided sources).  The spec fixes
only that Solana addresses are base58 encoded; this is the standard bs58
encoding: one alphabet-initial character per leading zero byte, then the
base58 digits of the big-endian value. -/
def bytesToBase58 (bs : List Nat) : String :=
  let n := bs.foldl (fun acc b => acc * 256 + b % 256) 0
  let zeros := (bs.takeWhile (fun b => decide (b = 0))).length
  String.mk (List.replicate zeros '1' ++ natToBase58Go (n + 1) n [])

/-- Embedding of protocolBytesToString from src/utils.ts: hexadecimal for the
Ethereum tag, base58 for Solana, an error for any other tag.  Protocol tags
are the protobuf enum numbers, 0 for ETHEREUM and 1 for SOLANA. -/
def protocolBytesToString (bytes : List Nat) (protocol : Nat) : Except String String :=
  if protocol = 0 then .ok (bytesToHex bytes)
  else if protocol = 1 then .ok (bytesToBase58 bytes)
  else .error "Unexpected protocol"

/-- Embedding of hubProtocolToVerificationProtocol from src/utils.ts; tags
outside the two known protocols fall through the switch and yield no value. -/
def hubProtocolToVerificationProtocol (protocol : Nat) : Option String :=
  if protocol = 0 then some "ethereum" else if protocol = 1 then some "solana" else none

/-- Cast reference inside a protobuf message. -/
structure CastId where
  fid : Nat
  hash : List Nat
deriving DecidableEq, Repr

/-- One embed of a cast body: a cast reference or a url, mirroring the
protobuf oneof as two optional fields. -/
structure Embed where
  castId : Option CastId
  url : Option String
deriving DecidableEq, Repr

/-- Protobuf cast-add body. -/
structure CastAddBody where
  embeds : List Embed
  mentions : List Nat
  mentionsPositions : List Nat
  text : String
  parentCastId : Option CastId
  parentUrl : Option String
deriving DecidableEq, Repr

/-- Protobuf cast-remove body. -/
structure CastRemoveBody where
  targetHash : List Nat
deriving DecidableEq, Repr

/-- Protobuf reaction body; the target oneof is mirrored as two optional
fields. -/
structure ReactionBody where
  type : Nat
  targetCastId : Option CastId
  targetUrl : Option String
deriving DecidableEq, Repr

/-- Protobuf link body. -/
structure LinkBody where
  type : String
  targetFid : Option Nat
  displayTimestamp : Option Nat
deriving DecidableEq, Repr

/-- Protobuf verification-add-address body. -/
structure VerificationAddAddressBody where
  address : List Nat
  claimSignature : List Nat
  blockHash : List Nat
  protocol : Nat
deriving DecidableEq, Repr

/-- Protobuf verification-remove body. -/
structure VerificationRemoveBody where
  address : List Nat
  protocol : Nat
deriving DecidableEq, Repr

/-- Protobuf user-data body. -/
structure UserDataBody where
  type : Nat
  value : String
deriving DecidableEq, Repr

/-- Protobuf username-proof body. -/
structure UserNameProofBody where
  timestamp : Nat
  name : List Nat
  owner : List Nat
  signature : List Nat
  fid : Nat
  type : Nat
deriving DecidableEq, Repr

/-- Message kinds handled by the codec; NONE stands for every kind outside
the decoded set and reaches the default arm of the body switch. -/
inductive MessageType where
  | NONE
  | CAST_ADD
  | CAST_REMOVE
  | REACTION_ADD
  | REACTION_REMOVE
  | LINK_ADD
  | LINK_REMOVE
  | VERIFICATION_ADD_ETH_ADDRESS
  | VERIFICATION_REMOVE
  | USER_DATA_ADD
  | USERNAME_PROOF
deriving DecidableEq, Repr

/-- Data section of a signed hub message; the per-kind bodies mirror the
protobuf optional fields. -/
structure MessageData where
  type : MessageType
  fid : Nat
  timestamp : Nat
  castAddBody : Option CastAddBody
  castRemoveBody : Option CastRemoveBody
  reactionBody : Option ReactionBody
  linkBody : Option LinkBody
  verificationAddAddressBody : Option VerificationAddAddressBody
  verificationRemoveBody : Option VerificationRemoveBody
  userDataBody : Option UserDataBody
  usernameProofBody : Option UserNameProofBody
deriving DecidableEq, Repr

/-- A signed hub message as received from the stream. -/
structure HubMessage where
  data : Option MessageData
  hash : List Nat
  hashScheme : Nat
  signatureScheme : Nat
  signer : List Nat
deriving DecidableEq, Repr

/-- Modelled from the spec: the hub SDK externals called by the shuttle --
message validation, the epoch-offset time conversion (which the spec says may
fail), and protobuf serialization producing the raw column.  The SDK package
is part of the repository but not under the provided sources, so these are
kept abstract and passed to every operation that uses them. -/
structure SdkEnv where
  validateOk : HubMessage → Bool
  fromFarcasterTime : Nat → Except String Nat
  encode : HubMessage → List Nat

/-- Embedding of farcasterTimeToDate from src/utils.ts.  The absent and null
inputs of the source are both modelled as none and pass through; a conversion
error propagates as a thrown error. -/
def farcasterTimeToDate (env : SdkEnv) (time : Option Nat) : Except String (Option Nat) :=
  match time with
  | none => .ok none
  | some t =>
    match env.fromFarcasterTime t with
    | .error e => .error e
    | .ok v => .ok (some v)

/-- Parent of a cast after decoding: a cast reference with hex hash, or a url. -/
inductive CastParent where
  | ref (fid : Nat) (hash : String)
  | url (u : String)
deriving DecidableEq, Repr

/-- Reaction target after decoding: a cast reference with hex hash, or a url. -/
inductive ReactionTarget where
  | ref (fid : Nat) (hash : String)
  | url (u : String)
deriving DecidableEq, Repr

/-- Decoded message body, one variant per handled message kind, mirroring the
JSON shapes built by convertProtobufMessageBodyToJson. -/
inductive Body where
  | castAdd (embeds : List String) (mentions : List Nat) (mentionsPositions : List Nat)
      (text : String) (parent : Option CastParent)
  | castRemove (targetHash : String)
  | reaction (type : Nat) (target : ReactionTarget)
  | link (type : String) (targetFid : Nat) (displayTimestamp : Option Nat)
  | verificationAdd (address : String) (claimSignature : String) (blockHash : String)
      (protocol : Option String)
  | verificationRemove (address : String) (protocol : Option String)
  | userDataAdd (type : Nat) (value : String)
  | usernameProof (timestamp : Nat) (name : String) (owner : String) (signature : String)
      (fid : Nat) (type : Nat)
deriving DecidableEq, Repr

/-- Embed list conversion of the cast-add arm: a cast reference becomes the
hex of its hash, otherwise a present url is kept, and embeds with neither
field are dropped. -/
def convertEmbeds : List Embed → List String
  | [] => []
  | e :: es =>
    match e.castId with
    | some c => bytesToHex c.hash :: convertEmbeds es
    | none =>
      match e.url with
      | some u => u :: convertEmbeds es
      | none => convertEmbeds es

/-- Embedding of convertProtobufMessageBodyToJson from src/utils.ts.  Missing
bodies, a missing or zero link target, an empty reaction target and unknown
kinds throw, modelled as errors; the JS truthiness tests on the link target
and display timestamp treat zero as absent, which the getD forms reproduce. -/
def convertProtobufMessageBodyToJson (env : SdkEnv) (message : HubMessage) :
    Except String Body :=
  match message.data with
  | none => .error "Unknown message type"
  | some data =>
    match data.type with
    | .CAST_ADD =>
      match data.castAddBody with
      | none => .error "Missing castAddBody"
      | some cb =>
        .ok (.castAdd (convertEmbeds cb.embeds) cb.mentions cb.mentionsPositions cb.text
          (match cb.parentCastId with
           | some c => some (.ref c.fid (bytesToHex c.hash))
           | none => cb.parentUrl.map .url))
    | .CAST_REMOVE =>
      match data.castRemoveBody with
      | none => .error "Missing castRemoveBody"
      | some rb => .ok (.castRemove (bytesToHex rb.targetHash))
    | .REACTION_ADD =>
      match data.reactionBody with
      | none => .error "Missing reactionBody"
      | some rb =>
        match rb.targetCastId with
        | some c => .ok (.reaction rb.type (.ref c.fid (bytesToHex c.hash)))
        | none =>
          match rb.targetUrl with
          | some u =>
            if u = "" then .error "Missing targetCastId and targetUrl on reactionBody"
            else .ok (.reaction rb.type (.url u))
          | none => .error "Missing targetCastId and targetUrl on reactionBody"
    | .REACTION_REMOVE =>
      match data.reactionBody with
      | none => .error "Missing reactionBody"
      | some rb =>
        match rb.targetCastId with
        | some c => .ok (.reaction rb.type (.ref c.fid (bytesToHex c.hash)))
        | none =>
          match rb.targetUrl with
          | some u =>
            if u = "" then .error "Missing targetCastId and targetUrl on reactionBody"
            else .ok (.reaction rb.type (.url u))
          | none => .error "Missing targetCastId and targetUrl on reactionBody"
    | .LINK_ADD =>
      match data.linkBody with
      | none => .error "Missing linkBody"
      | some lb =>
        if lb.targetFid.getD 0 = 0 then .error "Missing linkBody target"
        else
          if lb.displayTimestamp.getD 0 = 0 then .ok (.link lb.type (lb.targetFid.getD 0) none)
          else
            match env.fromFarcasterTime (lb.displayTimestamp.getD 0) with
            | .error e => .error e
            | .ok v => .ok (.link lb.type (lb.targetFid.getD 0) (some v))
    | .LINK_REMOVE =>
      match data.linkBody with
      | none => .error "Missing linkBody"
      | some lb =>
        if lb.targetFid.getD 0 = 0 then .error "Missing linkBody target"
        else
          if lb.displayTimestamp.getD 0 = 0 then .ok (.link lb.type (lb.targetFid.getD 0) none)
          else
            match env.fromFarcasterTime (lb.displayTimestamp.getD 0) with
            | .error e => .error e
            | .ok v => .ok (.link lb.type (lb.targetFid.getD 0) (some v))
    | .VERIFICATION_ADD_ETH_ADDRESS =>
      match data.verificationAddAddressBody with
      | none => .error "Missing verificationAddAddressBody"
      | some vb =>
        match protocolBytesToString vb.address vb.protocol with
        | .error e => .error e
        | .ok a =>
          match protocolBytesToString vb.claimSignature vb.protocol with
          | .error e => .error e
          | .ok cs =>
            match protocolBytesToString vb.blockHash vb.protocol with
            | .error e => .error e
            | .ok bh =>
              .ok (.verificationAdd a cs bh (hubProtocolToVerificationProtocol vb.protocol))
    | .VERIFICATION_REMOVE =>
      match data.verificationRemoveBody with
      | none => .error "Missing verificationRemoveBody"
      | some vb =>
        match protocolBytesToString vb.address vb.protocol with
        | .error e => .error e
        | .ok a => .ok (.verificationRemove a (hubProtocolToVerificationProtocol vb.protocol))
    | .USER_DATA_ADD =>
      match data.userDataBody with
      | none => .error "Missing userDataBody"
      | some ub => .ok (.userDataAdd ub.type ub.value)
    | .USERNAME_PROOF =>
      match data.usernameProofBody with
      | none => .error "Missing usernameProofBody"
      | some pb =>
        .ok (.usernameProof pb.timestamp (bytesToHex pb.name) (bytesToHex pb.owner)
          (bytesToHex pb.signature) pb.fid pb.type)
    | .NONE => .error "Unknown message type"

/-- Operation tag accepted by storeMessage. -/
inductive Operation where
  | merge
  | delete
  | prune
  | revoke
deriving DecidableEq, Repr

/-- The three lifecycle timestamps written with every row. -/
structure LifecycleData where
  deletedAt : Option Nat
  prunedAt : Option Nat
  revokedAt : Option Nat
deriving DecidableEq, Repr

/-- Embedding of the opData switch of storeMessage: all three columns start
null and the operation sets at most the one it owns to the current time. -/
def opData (operation : Operation) (now : Nat) : LifecycleData :=
  match operation with
  | .merge => ⟨none, none, none⟩
  | .delete => ⟨some now, none, none⟩
  | .prune => ⟨none, some now, none⟩
  | .revoke => ⟨none, none, some now⟩

/-- One row of the messages table. -/
structure MessageRow where
  id : Nat
  fid : Nat
  type : MessageType
  timestamp : Option Nat
  hashScheme : Nat
  signatureScheme : Nat
  hash : List Nat
  signer : List Nat
  raw : List Nat
  body : Body
  deletedAt : Option Nat
  prunedAt : Option Nat
  revokedAt : Option Nat
deriving DecidableEq, Repr

/-- The relational store: the messages table in insertion order plus the
generator of the store-assigned id column. -/
structure Db where
  messages : List MessageRow
  nextId : Nat
deriving DecidableEq, Repr

/-- Store with no rows. -/
def emptyDb : Db := ⟨[], 0⟩

/-- The conflict target of the upsert: a row conflicts with the incoming
message when hash, fid and type all coincide. -/
def conflictKey (r : MessageRow) (message : HubMessage) (data : MessageData) : Bool :=
  decide (r.hash = message.hash ∧ r.fid = data.fid ∧ r.type = data.type)

/-- Embedding of the conflict-update where clause: for each lifecycle column,
the incoming value is non-null while the stored one is null, or the incoming
value is null while the stored one is non-null; the six clauses are joined by
or exactly as in the source. -/
def lifecycleChanged (opd : LifecycleData) (r : MessageRow) : Bool :=
  (opd.deletedAt.isSome && r.deletedAt.isNone) || (opd.deletedAt.isNone && r.deletedAt.isSome) ||
  ((opd.prunedAt.isSome && r.prunedAt.isNone) || (opd.prunedAt.isNone && r.prunedAt.isSome)) ||
  ((opd.revokedAt.isSome && r.revokedAt.isNone) || (opd.revokedAt.isNone && r.revokedAt.isSome))

/-- Columns assigned by the conflict-update arm: signatureScheme, signer, raw
and the three lifecycle columns; every other column keeps its stored value. -/
def applyOpData (env : SdkEnv) (message : HubMessage) (opd : LifecycleData)
    (r : MessageRow) : MessageRow :=
  { r with
    signatureScheme := message.signatureScheme
    signer := message.signer
    raw := env.encode message
    deletedAt := opd.deletedAt
    prunedAt := opd.prunedAt
    revokedAt := opd.revokedAt }

/-- The row shape passed to the insert arm of the upsert. -/
def newRow (env : SdkEnv) (message : HubMessage) (data : MessageData) (body : Body)
    (ts : Option Nat) (opd : LifecycleData) (id : Nat) : MessageRow :=
  { id := id
    fid := data.fid
    type := data.type
    timestamp := ts
    hashScheme := message.hashScheme
    signatureScheme := message.signatureScheme
    hash := message.hash
    signer := message.signer
    raw := env.encode message
    body := body
    deletedAt := opd.deletedAt
    prunedAt := opd.prunedAt
    revokedAt := opd.revokedAt }

/-- Embedding of the single-statement upsert of storeMessage: insert with
conflict target (hash, fid, type); on conflict update only under the
lifecycle-change predicate.  The returned boolean is the JS truthiness of the
first returned row: true when a row was inserted or updated, false when the
update was suppressed and the statement reported zero rows changed. -/
def upsert (env : SdkEnv) (message : HubMessage) (data : MessageData) (body : Body)
    (ts : Option Nat) (opd : LifecycleData) (db : Db) : Db × Bool :=
  match db.messages.find? (fun r => conflictKey r message data) with
  | none =>
    (⟨db.messages ++ [newRow env message data body ts opd db.nextId], db.nextId + 1⟩, true)
  | some existing =>
    if lifecycleChanged opd existing then
      (⟨db.messages.map (fun r =>
          if conflictKey r message data then applyOpData env message opd r else r),
        db.nextId⟩, true)
    else (db, false)

/-- Embedding of MessageProcessor.storeMessage: validate, require the data
section, decode the body, derive the lifecycle columns from the operation and
the wall-clock timestamp from the hub timestamp, then run the upsert inside
the caller's transaction. -/
def storeMessage (env : SdkEnv) (message : HubMessage) (db : Db)
    (operation : Operation) (now : Nat) : Except String (Db × Bool) :=
  if env.validateOk message then
    match message.data with
    | none => .error "Message data is missing"
    | some data =>
      match convertProtobufMessageBodyToJson env message with
      | .error e => .error e
      | .ok body =>
        match farcasterTimeToDate env (some data.timestamp) with
        | .error e => .error e
        | .ok ts => .ok (upsert env message data body ts (opData operation now) db)
  else .error "Invalid message"

/-- Caller-supplied merge hook: runs inside the dispatcher's transaction with
the transaction handle, may change the store, and may raise. -/
def MessageHandler : Type :=
  HubMessage → Db → Operation → Bool → Except String Db

/-- Transaction body of HubEventProcessor.processMergeMessage: storeMessage
with the merge operation, then the handler hook on the same transaction. -/
def processMergeMessageBody (env : SdkEnv) (handler : MessageHandler) (now : Nat)
    (message : HubMessage) (wasMissed : Bool) (trx : Db) : Except String Db :=
  match storeMessage env message trx .merge now with
  | .error e => .error e
  | .ok (trx2, _) => handler message trx2 .merge wasMissed

/-- Transaction semantics of the store: the body runs on the current state;
on success its state commits, on a raise the transaction rolls back and the
state from before the transaction is kept, with the error reported. -/
def transactionResult (db : Db) (body : Db → Except String Db) : Db × Option String :=
  match body db with
  | .ok db2 => (db2, none)
  | .error e => (db, some e)

/-- Embedding of HubEventProcessor.processMergeMessage: the transactional
store-then-hook body under rollback semantics. -/
def processMergeMessage (env : SdkEnv) (handler : MessageHandler) (now : Nat)
    (db : Db) (message : HubMessage) (wasMissed : Bool) : Db × Option String :=
  transactionResult db (processMergeMessageBody env handler now message wasMissed)

/-- Embedding of HubEventProcessor.handleMissingMessage: the same transactional
body with the missed flag set, used by the reconciler to re-enter the pipeline. -/
def handleMissingMessage (env : SdkEnv) (handler : MessageHandler) (now : Nat)
    (db : Db) (message : HubMessage) : Db × Option String :=
  processMergeMessage env handler now db message true

/-- Hub event types of the subscriber's default filter. -/
inductive HubEventType where
  | NONE
  | MERGE_MESSAGE
  | PRUNE_MESSAGE
  | REVOKE_MESSAGE
  | MERGE_USERNAME_PROOF
  | MERGE_ON_CHAIN_EVENT
deriving DecidableEq, Repr

/-- A hub event frame: its stream id, its type, and the inner message of a
merge-message body when present (the isMergeMessageHubEvent guard of the SDK
checks the type and the presence of the body). -/
structure HubEvent where
  id : Nat
  type : HubEventType
  mergeMessageBody : Option HubMessage
deriving DecidableEq, Repr

/-- Embedding of HubEventProcessor.processHubEvent: only the merge-message arm
is implemented; every other event leaves the store untouched and invokes no
handler. -/
def processHubEvent (env : SdkEnv) (handler : MessageHandler) (now : Nat)
    (db : Db) (event : HubEvent) : Db × Option String :=
  match event.type, event.mergeMessageBody with
  | .MERGE_MESSAGE, some message => processMergeMessage env handler now db message false
  | _, _ => (db, none)

/-- Checkpoint key of src/shuttle/redis.ts for one hub identifier. -/
def redisKey (hubId : String) : String :=
  "hub:" ++ hubId ++ ":last-hub-event-id"

/-- Key/value checkpoint store.  The source serializes the event id to its
decimal string and parses it back with parseInt, an exact round trip on
naturals, modelled by storing the number itself. -/
def Checkpoints : Type := List (String × Nat)

/-- Embedding of RedisClient.setLastProcessedEvent: set the hub's checkpoint
key to the event id. -/
def setLastProcessedEvent (kv : Checkpoints) (hubId : String) (eventId : Nat) : Checkpoints :=
  (redisKey hubId, eventId) :: kv

/-- Embedding of RedisClient.getLastProcessedEvent: the stored value of the
hub's checkpoint key, or zero when the key is absent. -/
def getLastProcessedEvent (kv : Checkpoints) (hubId : String) : Nat :=
  match kv.find? (fun p => p.1 == redisKey hubId) with
  | some p => p.2
  | none => 0

/-- Modelled from the spec: the event-loop wiring between the dispatcher and
the checkpoint is not under the provided sources (only its collaborators
are).  Following section 4.5, the event is processed and, on commit success
only, Checkpoint.save records the event id under the hub identifier; on a
raise the checkpoint is left as it was. -/
def dispatchEvent (env : SdkEnv) (handler : MessageHandler) (now : Nat) (hubId : String)
    (db : Db) (kv : Checkpoints) (event : HubEvent) : Db × Checkpoints :=
  match processHubEvent env handler now db event with
  | (db2, none) => (db2, setLastProcessedEvent kv hubId event.id)
  | (db2, some _) => (db2, kv)

/-- One invocation of the reconciler's caller hook. -/
structure ReconcileCall where
  message : HubMessage
  missingInDb : Bool
  prunedInDb : Bool
  revokedInDb : Bool
deriving DecidableEq, Repr

/-- Embedding of one batch body of reconcileMessagesOfTypeForFid: empty
batches are skipped; otherwise the store is queried for rows whose hash is in
the batch, a hash-keyed lookup is built (the reduce overwrites, so the last
matching row wins, modelled by getLast? of the matching rows), and the hook
is invoked per hub message in order with the missing, pruned and revoked
flags. -/
def reconcileBatch (db : Db) (messages : List HubMessage) : List ReconcileCall :=
  if messages.isEmpty then []
  else
    let dbMessages := db.messages.filter
      (fun r => messages.any (fun m => decide (m.hash = r.hash)))
    messages.map (fun m =>
      match (dbMessages.filter (fun r => decide (r.hash = m.hash))).getLast? with
      | none => ⟨m, true, false, false⟩
      | some r => ⟨m, false, r.prunedAt.isSome, r.revokedAt.isSome⟩)

/-- Embedding of reconcileMessagesOfTypeForFid over the hub's paged inventory:
the hub client is external, so the pages it returns are taken as input; the
result is the sequence of hook invocations in order. -/
def reconcileMessagesOfTypeForFid (db : Db) (pages : List (List HubMessage)) :
    List ReconcileCall :=
  (pages.map (reconcileBatch db)).flatten

/-- Decidable equality of transaction outcomes, used to evaluate the theorems
on concrete inputs. -/
instance {ε α : Type} [DecidableEq ε] [DecidableEq α] : DecidableEq (Except ε α) := fun x y =>
  match x, y with
  | .ok a, .ok b =>
    match decEq a b with
    | .isTrue h => .isTrue (congrArg Except.ok h)
    | .isFalse h => .isFalse (fun hh => h (Except.ok.inj hh))
  | .error a, .error b =>
    match decEq a b with
    | .isTrue h => .isTrue (congrArg Except.error h)
    | .isFalse h => .isFalse (fun hh => h (Except.error.inj hh))
  | .ok _, .error _ => .isFalse (fun hh => Except.noConfusion hh)
  | .error _, .ok _ => .isFalse (fun hh => Except.noConfusion hh)

/-- Success test on a transaction outcome. -/
def isOkResult (x : Except String Db) : Bool :=
  match x with
  | .ok _ => true
  | .error _ => false

/-- Repeated application of storeMessage with the merge operation, one clock
reading per application. -/
def mergeSeq (env : SdkEnv) (message : HubMessage) : List Nat → Db → Except String Db
  | [], db => .ok db
  | now :: rest, db =>
    match storeMessage env message db .merge now with
    | .error e => .error e
    | .ok (db2, _) => mergeSeq env message rest db2

/-- At most one of the three lifecycle timestamps of a row is non-null. -/
def atMostOneLifecycle (r : MessageRow) : Prop :=
  (r.deletedAt = none ∧ r.prunedAt = none) ∨ (r.deletedAt = none ∧ r.revokedAt = none) ∨
    (r.prunedAt = none ∧ r.revokedAt = none)

instance (r : MessageRow) : Decidable (atMostOneLifecycle r) := by
  unfold atMostOneLifecycle; infer_instance

/-- The lifecycle columns not owned by the operation are null. -/
def otherLifecycleNone (operation : Operation) (r : MessageRow) : Prop :=
  match operation with
  | .merge => r.deletedAt = none ∧ r.prunedAt = none ∧ r.revokedAt = none
  | .delete => r.prunedAt = none ∧ r.revokedAt = none
  | .prune => r.deletedAt = none ∧ r.revokedAt = none
  | .revoke => r.deletedAt = none ∧ r.prunedAt = none

/-- Concrete SDK environment for evaluating the theorems: every message
validates, the time conversion is the Farcaster epoch offset in milliseconds,
and serialization is stood in for by the message hash. -/
def env0 : SdkEnv :=
  ⟨fun _ => true, fun t => .ok (t * 1000 + 1609459200000), fun m => m.hash⟩

/-- Concrete SDK environment whose time conversion always fails. -/
def envBad : SdkEnv :=
  ⟨fun _ => true, fun _ => .error "bad time", fun m => m.hash⟩

/-- Concrete data section of a user-data message. -/
def mdata0 : MessageData :=
  ⟨.USER_DATA_ADD, 7, 42, none, none, none, none, none, none, some ⟨1, "x"⟩, none⟩

/-- Concrete user-data message. -/
def msg0 : HubMessage := ⟨some mdata0, [1, 2], 1, 1, [9]⟩

/-- Store state after merging msg0 into the empty store. -/
def db1def : Db :=
  match storeMessage env0 msg0 emptyDb .merge 0 with
  | .ok p => p.1
  | .error _ => emptyDb

/-- Store state after then deleting msg0. -/
def d2def : Db :=
  match storeMessage env0 msg0 db1def .delete 5 with
  | .ok p => p.1
  | .error _ => emptyDb

/-- Store state after then merging msg0 again. -/
def d3def : Db :=
  match storeMessage env0 msg0 d2def .merge 9 with
  | .ok p => p.1
  | .error _ => emptyDb

/-- Store state after pruning msg0 in the deleted store. -/
def pruneDb : Db :=
  match storeMessage env0 msg0 d2def .prune 7 with
  | .ok p => p.1
  | .error _ => emptyDb

/-- Concrete verification message with the Ethereum protocol tag. -/
def vmsgEth : HubMessage :=
  ⟨some ⟨.VERIFICATION_ADD_ETH_ADDRESS, 7, 42, none, none, none, none,
    some ⟨[1, 2], [3], [4], 0⟩, none, none, none⟩, [5], 1, 1, [9]⟩

/-- Concrete verification message with the Solana protocol tag. -/
def vmsgSol : HubMessage :=
  ⟨some ⟨.VERIFICATION_ADD_ETH_ADDRESS, 7, 42, none, none, none, none,
    some ⟨[0, 1], [3], [4], 1⟩, none, none, none⟩, [6], 1, 1, [9]⟩

/-- Handler hook that accepts every merge unchanged. -/
def handlerOk : MessageHandler := fun _ d _ _ => .ok d

/-- Handler hook that raises on every merge. -/
def handlerErr : MessageHandler := fun _ _ _ _ => .error "boom"

/-- Concrete merge-message hub event carrying msg0. -/
def ev0 : HubEvent := ⟨100, .MERGE_MESSAGE, some msg0⟩

/-- Concrete prune-message hub event. -/
def evPrune : HubEvent := ⟨101, .PRUNE_MESSAGE, none⟩

/-- Store state after dispatching ev0 with the accepting handler. -/
def dispDb : Db := (processHubEvent env0 handlerOk 0 emptyDb ev0).1

/-- Concrete hub message used by the reconciler examples, distinguished by
its hash. -/
def recMsg (h : Nat) : HubMessage := ⟨some mdata0, [h], 1, 1, [9]⟩

/-- Concrete store for the reconciler examples: a live row with hash 3 and a
pruned row with hash 4. -/
def dbRec : Db :=
  ⟨[{ id := 0, fid := 7, type := .USER_DATA_ADD, timestamp := some 1, hashScheme := 1,
      signatureScheme := 1, hash := [3], signer := [9], raw := [3],
      body := .userDataAdd 1 "x", deletedAt := none, prunedAt := none, revokedAt := none },
    { id := 1, fid := 7, type := .USER_DATA_ADD, timestamp := some 1, hashScheme := 1,
      signatureScheme := 1, hash := [4], signer := [9], raw := [4],
      body := .userDataAdd 1 "x", deletedAt := none, prunedAt := some 2, revokedAt := none }],
   2⟩

/-- Concrete two-page hub inventory for the reconciler examples. -/
def pagesRec : List (List HubMessage) :=
  [[recMsg 3, recMsg 5], [recMsg 4]]

/-! ### Helper lemmas -/

theorem isSome_false_eq_none {α : Type} {a : Option α} (h : a.isSome = false) : a = none := by
  cases a with
  | none => rfl
  | some v => simp at h

theorem find?_append_none {α : Type} {p : α → Bool} {l1 l2 : List α}
    (h : l1.find? p = none) : (l1 ++ l2).find? p = l2.find? p := by
  induction l1 with
  | nil => simp
  | cons a l ih =>
    cases hpa : p a with
    | true => rw [List.find?_cons_of_pos l hpa] at h; exact absurd h (by simp)
    | false =>
      rw [List.find?_cons_of_neg l (by simp [hpa])] at h
      rw [List.cons_append, List.find?_cons_of_neg _ (by simp [hpa])]
      exact ih h

theorem find?_map_ite {α : Type} (p : α → Bool) (f : α → α)
    (hf : ∀ a, p (f a) = p a) (l : List α) :
    (l.map (fun a => if p a then f a else a)).find? p = (l.find? p).map f := by
  induction l with
  | nil => rfl
  | cons a l ih =>
    cases hpa : p a with
    | true =>
      rw [List.map_cons]
      rw [if_pos hpa, List.find?_cons_of_pos _ (by rw [hf, hpa]),
        List.find?_cons_of_pos _ hpa]
      rfl
    | false =>
      rw [List.map_cons]
      rw [if_neg (by simp [hpa]), List.find?_cons_of_neg _ (by simp [hpa]),
        List.find?_cons_of_neg _ (by simp [hpa])]
      exact ih

theorem lifecycleChanged_eq_false_iff (opd : LifecycleData) (r : MessageRow) :
    lifecycleChanged opd r = false ↔
      (opd.deletedAt.isSome = r.deletedAt.isSome ∧ opd.prunedAt.isSome = r.prunedAt.isSome ∧
        opd.revokedAt.isSome = r.revokedAt.isSome) := by
  unfold lifecycleChanged
  cases opd.deletedAt <;> cases opd.prunedAt <;> cases opd.revokedAt <;>
    cases r.deletedAt <;> cases r.prunedAt <;> cases r.revokedAt <;> simp

theorem conflictKey_newRow (env : SdkEnv) (message : HubMessage) (data : MessageData)
    (body : Body) (ts : Option Nat) (opd : LifecycleData) (id : Nat) :
    conflictKey (newRow env message data body ts opd id) message data = true := by
  simp [conflictKey, newRow]

theorem conflictKey_applyOpData (env : SdkEnv) (message : HubMessage) (opd : LifecycleData)
    (r : MessageRow) (message' : HubMessage) (data' : MessageData) :
    conflictKey (applyOpData env message opd r) message' data' = conflictKey r message' data' :=
  rfl

theorem upsert_of_find_none {env : SdkEnv} {message : HubMessage} {data : MessageData}
    {body : Body} {ts : Option Nat} {opd : LifecycleData} {db : Db}
    (h : db.messages.find? (fun r => conflictKey r message data) = none) :
    upsert env message data body ts opd db =
      (⟨db.messages ++ [newRow env message data body ts opd db.nextId], db.nextId + 1⟩, true) := by
  unfold upsert
  rw [h]

theorem upsert_of_find_some_changed {env : SdkEnv} {message : HubMessage} {data : MessageData}
    {body : Body} {ts : Option Nat} {opd : LifecycleData} {db : Db} {existing : MessageRow}
    (h : db.messages.find? (fun r => conflictKey r message data) = some existing)
    (hc : lifecycleChanged opd existing = true) :
    upsert env message data body ts opd db =
      (⟨db.messages.map (fun r =>
          if conflictKey r message data then applyOpData env message opd r else r),
        db.nextId⟩, true) := by
  unfold upsert
  rw [h]
  simp [hc]

theorem upsert_of_find_some_unchanged {env : SdkEnv} {message : HubMessage} {data : MessageData}
    {body : Body} {ts : Option Nat} {opd : LifecycleData} {db : Db} {existing : MessageRow}
    (h : db.messages.find? (fun r => conflictKey r message data) = some existing)
    (hc : lifecycleChanged opd existing = false) :
    upsert env message data body ts opd db = (db, false) := by
  unfold upsert
  rw [h]
  simp [hc]

theorem storeMessage_ok_inv {env : SdkEnv} {message : HubMessage} {db : Db}
    {operation : Operation} {now : Nat} {res : Db × Bool}
    (h : storeMessage env message db operation now = .ok res) :
    env.validateOk message = true ∧
      ∃ data body ts, message.data = some data ∧
        convertProtobufMessageBodyToJson env message = .ok body ∧
        farcasterTimeToDate env (some data.timestamp) = .ok ts ∧
        res = upsert env message data body ts (opData operation now) db := by
  unfold storeMessage at h
  split at h
  case isTrue hv =>
    split at h
    case h_1 => exact absurd h (by simp)
    case h_2 data hd =>
      split at h
      case h_1 => exact absurd h (by simp)
      case h_2 body hb =>
        split at h
        case h_1 => exact absurd h (by simp)
        case h_2 ts ht =>
          exact ⟨hv, data, body, ts, hd, hb, ht, (Except.ok.inj h).symm⟩
  case isFalse => exact absurd h (by simp)

theorem storeMessage_eq_upsert {env : SdkEnv} {message : HubMessage} {db : Db}
    {operation : Operation} {now : Nat} {data : MessageData} {body : Body} {ts : Option Nat}
    (hv : env.validateOk message = true) (hd : message.data = some data)
    (hb : convertProtobufMessageBodyToJson env message = .ok body)
    (ht : farcasterTimeToDate env (some data.timestamp) = .ok ts) :
    storeMessage env message db operation now =
      .ok (upsert env message data body ts (opData operation now) db) := by
  simp only [storeMessage, hv, hd, hb, ht, if_true]

theorem upsert_find {env : SdkEnv} {message : HubMessage} {data : MessageData}
    {body : Body} {ts : Option Nat} {opd : LifecycleData} {db : Db} :
    ∃ r, (upsert env message data body ts opd db).1.messages.find?
        (fun x => conflictKey x message data) = some r ∧
      r.deletedAt.isSome = opd.deletedAt.isSome ∧
      r.prunedAt.isSome = opd.prunedAt.isSome ∧
      r.revokedAt.isSome = opd.revokedAt.isSome := by
  cases hfind : db.messages.find? (fun x => conflictKey x message data) with
  | none =>
    refine ⟨newRow env message data body ts opd db.nextId, ?_, rfl, rfl, rfl⟩
    rw [upsert_of_find_none hfind]
    exact (find?_append_none hfind).trans
      (List.find?_cons_of_pos _ (conflictKey_newRow env message data body ts opd db.nextId))
  | some existing =>
    cases hc : lifecycleChanged opd existing with
    | true =>
      refine ⟨applyOpData env message opd existing, ?_, rfl, rfl, rfl⟩
      rw [upsert_of_find_some_changed hfind hc]
      rw [find?_map_ite _ _ (fun a => conflictKey_applyOpData env message opd a message data) _,
        hfind]
      rfl
    | false =>
      obtain ⟨h1, h2, h3⟩ := (lifecycleChanged_eq_false_iff opd existing).mp hc
      refine ⟨existing, ?_, h1.symm, h2.symm, h3.symm⟩
      rw [upsert_of_find_some_unchanged hfind hc]
      exact hfind

theorem storeMessage_ok_find {env : SdkEnv} {message : HubMessage} {db db2 : Db}
    {operation : Operation} {now : Nat} {b : Bool} {data : MessageData}
    (h : storeMessage env message db operation now = .ok (db2, b))
    (hd : message.data = some data) :
    ∃ r, db2.messages.find? (fun x => conflictKey x message data) = some r ∧
      r.deletedAt.isSome = (opData operation now).deletedAt.isSome ∧
      r.prunedAt.isSome = (opData operation now).prunedAt.isSome ∧
      r.revokedAt.isSome = (opData operation now).revokedAt.isSome := by
  obtain ⟨hv, data', body, ts, hd', hb, ht, hres⟩ := storeMessage_ok_inv h
  rw [hd] at hd'
  cases Option.some.inj hd'
  have hu := @upsert_find env message data body ts (opData operation now) db
  rw [← hres] at hu
  exact hu

theorem merge_fixpoint {env : SdkEnv} {message : HubMessage} {db db1 : Db} {b : Bool}
    {now : Nat} (now2 : Nat)
    (h : storeMessage env message db .merge now = .ok (db1, b)) :
    storeMessage env message db1 .merge now2 = .ok (db1, false) := by
  obtain ⟨hv, data, body, ts, hd, hb, ht, hres⟩ := storeMessage_ok_inv h
  obtain ⟨r, hfind, h1, h2, h3⟩ := storeMessage_ok_find h hd
  rw [storeMessage_eq_upsert hv hd hb ht]
  have hc : lifecycleChanged (opData Operation.merge now2) r = false := by
    rw [lifecycleChanged_eq_false_iff]
    simp only [opData] at h1 h2 h3 ⊢
    simp at h1 h2 h3
    simp [h1, h2, h3]
  rw [upsert_of_find_some_unchanged hfind hc]

theorem mergeSeq_fixed {env : SdkEnv} {message : HubMessage} {db db1 : Db} {b : Bool}
    {now : Nat} (h : storeMessage env message db .merge now = .ok (db1, b)) :
    ∀ rest, mergeSeq env message rest db1 = .ok db1 := by
  intro rest
  induction rest with
  | nil => rfl
  | cons now2 rest ih =>
    unfold mergeSeq
    rw [merge_fixpoint now2 h]
    exact ih

theorem getLast?_cons_all_eq {α : Type} (a : α) (m : List α) (h : ∀ x ∈ m, x = a) :
    (a :: m).getLast? = some a := by
  induction m with
  | nil => rfl
  | cons b m ih =>
    rw [List.getLast?_cons_cons]
    have hb : b = a := h b (by simp)
    subst hb
    exact ih (fun x hx => h x (by simp [hx]))

theorem filter_getLast?_eq_find? {α : Type} (p : α → Bool) (l : List α)
    (h : ∀ a ∈ l, ∀ b ∈ l, p a = true → p b = true → a = b) :
    (l.filter p).getLast? = l.find? p := by
  induction l with
  | nil => rfl
  | cons a l ih =>
    cases hpa : p a with
    | false =>
      rw [List.filter_cons_of_neg (by simp [hpa]), List.find?_cons_of_neg _ (by simp [hpa])]
      exact ih (fun x hx y hy => h x (by simp [hx]) y (by simp [hy]))
    | true =>
      rw [List.filter_cons_of_pos hpa, List.find?_cons_of_pos _ hpa]
      refine getLast?_cons_all_eq a _ (fun x hx => ?_)
      exact h x (by simp [List.mem_of_mem_filter hx]) a (by simp)
        (List.of_mem_filter hx) hpa

/-! ### Claims -/

/-- C1: applying merge again to a row that is already live changes no
columns -- the conflict update is suppressed by the lifecycle-change
predicate -- so for every N of at least 1, the store state after N merge
applications of the same message equals the state after the first. -/
theorem mergeRepeatIdempotent (env : SdkEnv) (message : HubMessage) (db : Db)
    (now0 : Nat) (rest : List Nat)
    (h : isOkResult (mergeSeq env message [now0] db) = true) :
    mergeSeq env message (now0 :: rest) db = mergeSeq env message [now0] db := by
  cases hs : storeMessage env message db .merge now0 with
  | error e =>
    exfalso
    unfold mergeSeq at h
    rw [hs] at h
    simp [isOkResult] at h
  | ok p =>
    obtain ⟨db1, b⟩ := p
    unfold mergeSeq
    rw [hs]
    exact mergeSeq_fixed hs rest

/-- C1 witness: three merges of a concrete message land in the same state as
one. -/
theorem mergeRepeatIdempotent_witness :
    mergeSeq env0 msg0 (0 :: [3, 9]) emptyDb = mergeSeq env0 msg0 [0] emptyDb :=
  mergeRepeatIdempotent env0 msg0 emptyDb 0 [3, 9] (by decide)

/-- C2 counterexample: storeMessage returns the JS truthiness of the first
returned row, a boolean, not a three-valued result: a fresh insert (first
conjuncts) and a lifecycle-changing update of an existing row (last
conjuncts, which change the stored state without growing it) both return the
same value true, so the returned value cannot distinguish inserted from
updated. -/
theorem storeMessageNotThreeValued :
    emptyDb.messages.find? (fun r => conflictKey r msg0 mdata0) = none ∧
    (storeMessage env0 msg0 emptyDb .merge 0).map (fun p => p.2) = .ok true ∧
    (storeMessage env0 msg0 emptyDb .merge 0).map (fun p => p.1) = .ok db1def ∧
    db1def.messages.length = 1 ∧
    (storeMessage env0 msg0 db1def .delete 5).map (fun p => p.2) = .ok true ∧
    (storeMessage env0 msg0 db1def .delete 5).map (fun p => decide (p.1 = db1def)) = .ok false ∧
    (storeMessage env0 msg0 db1def .delete 5).map (fun p => p.1.messages.length) = .ok 1 := by
  decide

/-- C2 amended: storeMessage returns a two-valued result: true when the row
is new or an existing row's lifecycle changed, false when the conflict update
was suppressed (in which case the store is unchanged); in particular applying
the same decoded row twice with merge returns true on the first call and
false on the second. -/
theorem storeMessageBoolResult (env : SdkEnv) (message : HubMessage) (db db2 : Db)
    (operation : Operation) (now now2 : Nat) (b : Bool) (data : MessageData)
    (h : storeMessage env message db operation now = .ok (db2, b))
    (hd : message.data = some data) :
    (db.messages.find? (fun r => conflictKey r message data) = none →
      b = true ∧ db2.messages.length = db.messages.length + 1) ∧
    (∀ r, db.messages.find? (fun r => conflictKey r message data) = some r →
      b = lifecycleChanged (opData operation now) r ∧ (b = false → db2 = db)) ∧
    (operation = .merge → storeMessage env message db2 .merge now2 = .ok (db2, false)) := by
  obtain ⟨hv, data', body, ts, hd', hb, ht, hres⟩ := storeMessage_ok_inv h
  rw [hd] at hd'
  cases Option.some.inj hd'
  refine ⟨?_, ?_, ?_⟩
  · intro hfind
    rw [upsert_of_find_none hfind] at hres
    have hdb := congrArg Prod.fst hres
    have hbv := congrArg Prod.snd hres
    simp only [] at hdb hbv
    constructor
    · exact hbv
    · rw [hdb]
      simp
  · intro r hfind
    cases hc : lifecycleChanged (opData operation now) r with
    | true =>
      rw [upsert_of_find_some_changed hfind hc] at hres
      have hbv := congrArg Prod.snd hres
      simp only [] at hbv
      exact ⟨hbv, fun hfalse => absurd (hbv.symm.trans hfalse) (by simp)⟩
    | false =>
      rw [upsert_of_find_some_unchanged hfind hc] at hres
      have hdb := congrArg Prod.fst hres
      have hbv := congrArg Prod.snd hres
      simp only [] at hdb hbv
      exact ⟨hbv, fun _ => hdb⟩
  · intro hop
    subst hop
    exact merge_fixpoint now2 h

/-- C2 witness: the amended boolean contract evaluated on a concrete row:
the first merge is an insert returning true, and the same message merged
into the resulting store returns false with the store unchanged. -/
theorem storeMessageBoolResult_witness :
    (emptyDb.messages.find? (fun r => conflictKey r msg0 mdata0) = none →
      true = true ∧ db1def.messages.length = emptyDb.messages.length + 1) ∧
    (∀ r, emptyDb.messages.find? (fun r => conflictKey r msg0 mdata0) = some r →
      true = lifecycleChanged (opData .merge 0) r ∧ (true = false → db1def = emptyDb)) ∧
    (Operation.merge = .merge → storeMessage env0 msg0 db1def .merge 11 = .ok (db1def, false)) :=
  storeMessageBoolResult env0 msg0 emptyDb db1def .merge 0 11 true mdata0 (by decide) (by decide)

/-- C3: after merge, then any terminal operation, then merge of the same
message, the row is live again (all three lifecycle timestamps null); the
lifecycle columns not owned by the operation are null at every step, so
for delete the prunedAt and revokedAt columns stay null throughout, and
symmetrically for prune and revoke. -/
theorem lifecycleReversible (env : SdkEnv) (message : HubMessage) (db d1 d2 d3 : Db)
    (operation : Operation) (now1 now2 now3 : Nat) (b1 b2 b3 : Bool) (data : MessageData)
    (hd : message.data = some data)
    (h1 : storeMessage env message db .merge now1 = .ok (d1, b1))
    (h2 : storeMessage env message d1 operation now2 = .ok (d2, b2))
    (h3 : storeMessage env message d2 .merge now3 = .ok (d3, b3)) :
    ∃ r1 r2 r3,
      d1.messages.find? (fun x => conflictKey x message data) = some r1 ∧
      d2.messages.find? (fun x => conflictKey x message data) = some r2 ∧
      d3.messages.find? (fun x => conflictKey x message data) = some r3 ∧
      (r1.deletedAt = none ∧ r1.prunedAt = none ∧ r1.revokedAt = none) ∧
      (r2.deletedAt.isSome = (opData operation now2).deletedAt.isSome ∧
        r2.prunedAt.isSome = (opData operation now2).prunedAt.isSome ∧
        r2.revokedAt.isSome = (opData operation now2).revokedAt.isSome) ∧
      (r3.deletedAt = none ∧ r3.prunedAt = none ∧ r3.revokedAt = none) := by
  obtain ⟨r1, hf1, h1d, h1p, h1r⟩ := storeMessage_ok_find h1 hd
  obtain ⟨r2, hf2, h2d, h2p, h2r⟩ := storeMessage_ok_find h2 hd
  obtain ⟨r3, hf3, h3d, h3p, h3r⟩ := storeMessage_ok_find h3 hd
  simp only [opData, Option.isSome_none] at h1d h1p h1r h3d h3p h3r
  exact ⟨r1, r2, r3, hf1, hf2, hf3,
    ⟨isSome_false_eq_none h1d, isSome_false_eq_none h1p, isSome_false_eq_none h1r⟩,
    ⟨h2d, h2p, h2r⟩,
    ⟨isSome_false_eq_none h3d, isSome_false_eq_none h3p, isSome_false_eq_none h3r⟩⟩

/-- C3 witness: merge, delete, merge of a concrete message: the row exists
after every step, the delete step sets exactly deletedAt, and the final row
is live with prunedAt and revokedAt null throughout. -/
theorem lifecycleReversible_witness :
    ∃ r1 r2 r3,
      db1def.messages.find? (fun x => conflictKey x msg0 mdata0) = some r1 ∧
      d2def.messages.find? (fun x => conflictKey x msg0 mdata0) = some r2 ∧
      d3def.messages.find? (fun x => conflictKey x msg0 mdata0) = some r3 ∧
      (r1.deletedAt = none ∧ r1.prunedAt = none ∧ r1.revokedAt = none) ∧
      (r2.deletedAt.isSome = (opData .delete 5).deletedAt.isSome ∧
        r2.prunedAt.isSome = (opData .delete 5).prunedAt.isSome ∧
        r2.revokedAt.isSome = (opData .delete 5).revokedAt.isSome) ∧
      (r3.deletedAt = none ∧ r3.prunedAt = none ∧ r3.revokedAt = none) :=
  lifecycleReversible env0 msg0 emptyDb db1def d2def d3def .delete 0 5 9 true true true
    mdata0 (by decide) (by decide) (by decide) (by decide)

/-- C10: every storeMessage write assigns all three lifecycle columns at
once with at most the operation's own column non-null, so after any
successful application the matching row has the two non-selected lifecycle
columns null (a prune applied to a deleted row clears deletedAt), and a
store whose rows all have at most one non-null lifecycle timestamp keeps
that invariant. -/
theorem lifecycleExclusive (env : SdkEnv) (message : HubMessage) (db db2 : Db)
    (operation : Operation) (now : Nat) (b : Bool) (data : MessageData)
    (h : storeMessage env message db operation now = .ok (db2, b))
    (hd : message.data = some data) :
    ((∀ r ∈ db.messages, atMostOneLifecycle r) → ∀ r ∈ db2.messages, atMostOneLifecycle r) ∧
    (∃ r, db2.messages.find? (fun x => conflictKey x message data) = some r ∧
      otherLifecycleNone operation r) := by
  obtain ⟨hv, data', body, ts, hd', hb, ht, hres⟩ := storeMessage_ok_inv h
  rw [hd] at hd'
  cases Option.some.inj hd'
  constructor
  · intro hinv r hr
    have hdb2 : db2 = (upsert env message data body ts (opData operation now) db).1 := by
      rw [← hres]
    rw [hdb2] at hr
    cases hfind : db.messages.find? (fun x => conflictKey x message data) with
    | none =>
      rw [upsert_of_find_none hfind] at hr
      simp only [] at hr
      rcases List.mem_append.mp hr with hold | hnew
      · exact hinv r hold
      · have : r = newRow env message data body ts (opData operation now) db.nextId := by
          simpa using hnew
        subst this
        cases operation <;> simp [atMostOneLifecycle, newRow, opData]
    | some existing =>
      cases hc : lifecycleChanged (opData operation now) existing with
      | true =>
        rw [upsert_of_find_some_changed hfind hc] at hr
        simp only [] at hr
        obtain ⟨a, ha, hra⟩ := List.mem_map.mp hr
        by_cases hk : conflictKey a message data = true
        · rw [if_pos hk] at hra
          subst hra
          cases operation <;> simp [atMostOneLifecycle, applyOpData, opData]
        · rw [if_neg hk] at hra
          subst hra
          exact hinv a ha
      | false =>
        rw [upsert_of_find_some_unchanged hfind hc] at hr
        exact hinv r hr
  · obtain ⟨r, hfind, hrd, hrp, hrr⟩ := storeMessage_ok_find h hd
    refine ⟨r, hfind, ?_⟩
    cases operation <;>
      simp only [opData, Option.isSome_none, Option.isSome_some] at hrd hrp hrr <;>
      simp only [otherLifecycleNone] <;>
      first
      | exact ⟨isSome_false_eq_none hrd, isSome_false_eq_none hrp, isSome_false_eq_none hrr⟩
      | exact ⟨isSome_false_eq_none hrp, isSome_false_eq_none hrr⟩
      | exact ⟨isSome_false_eq_none hrd, isSome_false_eq_none hrr⟩
      | exact ⟨isSome_false_eq_none hrd, isSome_false_eq_none hrp⟩

/-- C10 witness: a prune applied to the concrete deleted store keeps the
invariant and clears deletedAt, leaving only prunedAt non-null. -/
theorem lifecycleExclusive_witness :
    ((∀ r ∈ d2def.messages, atMostOneLifecycle r) →
      ∀ r ∈ pruneDb.messages, atMostOneLifecycle r) ∧
    (∃ r, pruneDb.messages.find? (fun x => conflictKey x msg0 mdata0) = some r ∧
      otherLifecycleNone .prune r) :=
  lifecycleExclusive env0 msg0 d2def pruneDb .prune 7 true mdata0 (by decide) (by decide)

/-- C7: processHubEvent only implements the merge-message arm: an event of
any other type performs no store application and no handler invocation, so
the store is unchanged and no error is reported, for every handler. -/
theorem nonMergeEventNoop (env : SdkEnv) (handler : MessageHandler) (now : Nat)
    (db : Db) (event : HubEvent) (h : event.type ≠ .MERGE_MESSAGE) :
    processHubEvent env handler now db event = (db, none) := by
  obtain ⟨eid, etype, ebody⟩ := event
  cases etype <;> cases ebody <;> first
    | rfl
    | exact absurd rfl h

/-- C7 witness: a concrete prune-message event dispatched against the empty
store leaves it untouched for a handler that would have changed it. -/
theorem nonMergeEventNoop_witness :
    processHubEvent env0 handlerErr 0 emptyDb evPrune = (emptyDb, none) :=
  nonMergeEventNoop env0 handlerErr 0 emptyDb evPrune (by decide)

/-- C8: for a message that passes validation, carries a data section and
whose body decodes, a successful time conversion yields a stored row whose
timestamp is the converted wall-clock instant, hence non-null (shown for the
fresh-insert case which produces the row); and a failing time conversion
makes storeMessage fail with that error, producing no row. -/
theorem timestampNonNull (env : SdkEnv) (message : HubMessage) (db : Db)
    (operation : Operation) (now : Nat) (data : MessageData) (body : Body)
    (hd : message.data = some data) (hv : env.validateOk message = true)
    (hb : convertProtobufMessageBodyToJson env message = .ok body) :
    (∀ t, env.fromFarcasterTime data.timestamp = .ok t →
      ∃ db2 b, storeMessage env message db operation now = .ok (db2, b) ∧
        (db.messages.find? (fun x => conflictKey x message data) = none →
          ∃ r, db2.messages.find? (fun x => conflictKey x message data) = some r ∧
            r.timestamp = some t)) ∧
    (∀ e, env.fromFarcasterTime data.timestamp = .error e →
      storeMessage env message db operation now = .error e) := by
  constructor
  · intro t ht
    have ht' : farcasterTimeToDate env (some data.timestamp) = .ok (some t) := by
      simp [farcasterTimeToDate, ht]
    refine ⟨(upsert env message data body (some t) (opData operation now) db).1,
      (upsert env message data body (some t) (opData operation now) db).2,
      by rw [storeMessage_eq_upsert hv hd hb ht'], ?_⟩
    intro hfind
    refine ⟨newRow env message data body (some t) (opData operation now) db.nextId, ?_, rfl⟩
    rw [upsert_of_find_none hfind]
    exact (find?_append_none hfind).trans
      (List.find?_cons_of_pos _ (conflictKey_newRow env message data body (some t) _ db.nextId))
  · intro e he
    have ht' : farcasterTimeToDate env (some data.timestamp) = .error e := by
      simp [farcasterTimeToDate, he]
    simp only [storeMessage, hv, hd, hb, ht', if_true]

/-- C8 witness: the concrete message stores a non-null converted timestamp
on a fresh insert, and under an environment whose conversion fails the same
call fails instead of storing a null timestamp. -/
theorem timestampNonNull_witness :
    (∃ db2 b, storeMessage env0 msg0 emptyDb .merge 0 = .ok (db2, b) ∧
      (emptyDb.messages.find? (fun x => conflictKey x msg0 mdata0) = none →
        ∃ r, db2.messages.find? (fun x => conflictKey x msg0 mdata0) = some r ∧
          r.timestamp = some 1609459242000)) ∧
    storeMessage envBad msg0 emptyDb .merge 0 = .error "bad time" :=
  ⟨(timestampNonNull env0 msg0 emptyDb .merge 0 mdata0 (.userDataAdd 1 "x")
      (by decide) (by decide) (by decide)).1 1609459242000 (by decide),
   (timestampNonNull envBad msg0 emptyDb .merge 0 mdata0 (.userDataAdd 1 "x")
      (by decide) (by decide) (by decide)).2 "bad time" (by decide)⟩

/-- C9: the decoded body of a verification-add-address message encodes the
address, claim signature and block hash bytes hexadecimally when the
protocol tag is Ethereum and in base58 when the tag is Solana, and the
body's protocol field is the matching tag. -/
theorem verificationAddressEncoding (env : SdkEnv) (message : HubMessage)
    (data : MessageData) (vb : VerificationAddAddressBody)
    (hd : message.data = some data) (htype : data.type = .VERIFICATION_ADD_ETH_ADDRESS)
    (hvb : data.verificationAddAddressBody = some vb) :
    (vb.protocol = 0 →
      convertProtobufMessageBodyToJson env message =
        .ok (.verificationAdd (bytesToHex vb.address) (bytesToHex vb.claimSignature)
          (bytesToHex vb.blockHash) (some "ethereum"))) ∧
    (vb.protocol = 1 →
      convertProtobufMessageBodyToJson env message =
        .ok (.verificationAdd (bytesToBase58 vb.address) (bytesToBase58 vb.claimSignature)
          (bytesToBase58 vb.blockHash) (some "solana"))) := by
  constructor
  · intro hp
    simp only [convertProtobufMessageBodyToJson, hd, htype, hvb,
      protocolBytesToString, hubProtocolToVerificationProtocol, hp, if_true]
  · intro hp
    simp only [convertProtobufMessageBodyToJson, hd, htype, hvb,
      protocolBytesToString, hubProtocolToVerificationProtocol, hp]
    norm_num

/-- C9 witness: concrete Ethereum and Solana verification messages decode to
the hexadecimal and base58 encodings of their address bytes with the
matching protocol tags. -/
theorem verificationAddressEncoding_witness :
    convertProtobufMessageBodyToJson env0 vmsgEth =
      .ok (.verificationAdd (bytesToHex [1, 2]) (bytesToHex [3]) (bytesToHex [4])
        (some "ethereum")) ∧
    convertProtobufMessageBodyToJson env0 vmsgSol =
      .ok (.verificationAdd (bytesToBase58 [0, 1]) (bytesToBase58 [3]) (bytesToBase58 [4])
        (some "solana")) :=
  ⟨(verificationAddressEncoding env0 vmsgEth
      ⟨.VERIFICATION_ADD_ETH_ADDRESS, 7, 42, none, none, none, none,
        some ⟨[1, 2], [3], [4], 0⟩, none, none, none⟩ ⟨[1, 2], [3], [4], 0⟩
      (by decide) (by decide) (by decide)).1 (by decide),
   (verificationAddressEncoding env0 vmsgSol
      ⟨.VERIFICATION_ADD_ETH_ADDRESS, 7, 42, none, none, none, none,
        some ⟨[0, 1], [3], [4], 1⟩, none, none, none⟩ ⟨[0, 1], [3], [4], 1⟩
      (by decide) (by decide) (by decide)).2 (by decide)⟩

/-- C4: when the handler hook raises inside the dispatch transaction of a
merge-message event, the transaction aborts atomically: the store state and
the checkpoint store after the dispatch equal the states from before it, so
a message absent before the dispatch is still absent. -/
theorem handlerAbortAtomic (env : SdkEnv) (handler : MessageHandler) (now : Nat)
    (hubId : String) (db : Db) (kv : Checkpoints) (event : HubEvent) (message : HubMessage)
    (htype : event.type = .MERGE_MESSAGE) (hbody : event.mergeMessageBody = some message)
    (hraise : ∀ m d o w, ∃ e, handler m d o w = .error e) :
    (∃ e, processHubEvent env handler now db event = (db, some e)) ∧
    dispatchEvent env handler now hubId db kv event = (db, kv) ∧
    (∀ data, message.data = some data →
      db.messages.find? (fun x => conflictKey x message data) = none →
      (processHubEvent env handler now db event).1.messages.find?
        (fun x => conflictKey x message data) = none) := by
  obtain ⟨eid, etype, ebody⟩ := event
  cases htype
  cases hbody
  have hbodyErr : ∃ e, processMergeMessageBody env handler now message false db = .error e := by
    unfold processMergeMessageBody
    cases hs : storeMessage env message db .merge now with
    | error e => exact ⟨e, rfl⟩
    | ok p =>
      obtain ⟨trx2, bb⟩ := p
      obtain ⟨e, he⟩ := hraise message trx2 .merge false
      exact ⟨e, he⟩
  obtain ⟨e, he⟩ := hbodyErr
  have hproc : processHubEvent env handler now db ⟨eid, .MERGE_MESSAGE, some message⟩ =
      (db, some e) := by
    show processMergeMessage env handler now db message false = (db, some e)
    unfold processMergeMessage transactionResult
    rw [he]
  refine ⟨⟨e, hproc⟩, ?_, ?_⟩
  · unfold dispatchEvent
    rw [hproc]
  · intro data _ hfind
    rw [hproc]
    exact hfind

/-- C4 witness: a raising handler on a concrete merge-message event leaves
the empty store and the empty checkpoint store unchanged, and the message's
row is still absent. -/
theorem handlerAbortAtomic_witness :
    (∃ e, processHubEvent env0 handlerErr 0 emptyDb ev0 = (emptyDb, some e)) ∧
    dispatchEvent env0 handlerErr 0 "hub1" emptyDb [] ev0 = (emptyDb, []) ∧
    (∀ data, msg0.data = some data →
      emptyDb.messages.find? (fun x => conflictKey x msg0 data) = none →
      (processHubEvent env0 handlerErr 0 emptyDb ev0).1.messages.find?
        (fun x => conflictKey x msg0 data) = none) :=
  handlerAbortAtomic env0 handlerErr 0 "hub1" emptyDb [] ev0 msg0 (by decide) (by decide)
    (fun m d o w => ⟨"boom", rfl⟩)

/-- C5: when processing a hub event commits without error, the dispatcher
saves the checkpoint for the hub under the event's id, so the saved
checkpoint read back for that hub equals the event id. -/
theorem checkpointSavedOnCommit (env : SdkEnv) (handler : MessageHandler) (now : Nat)
    (hubId : String) (db db2 : Db) (kv : Checkpoints) (event : HubEvent)
    (h : processHubEvent env handler now db event = (db2, none)) :
    dispatchEvent env handler now hubId db kv event =
      (db2, setLastProcessedEvent kv hubId event.id) ∧
    getLastProcessedEvent (dispatchEvent env handler now hubId db kv event).2 hubId =
      event.id := by
  have hdisp : dispatchEvent env handler now hubId db kv event =
      (db2, setLastProcessedEvent kv hubId event.id) := by
    unfold dispatchEvent
    rw [h]
  refine ⟨hdisp, ?_⟩
  rw [hdisp]
  simp [getLastProcessedEvent, setLastProcessedEvent, List.find?]

/-- C5 witness: dispatching a concrete merge-message event with an accepting
handler saves and reads back its event id 100 as the hub's checkpoint. -/
theorem checkpointSavedOnCommit_witness :
    dispatchEvent env0 handlerOk 0 "hub1" emptyDb [] ev0 =
      (dispDb, setLastProcessedEvent [] "hub1" ev0.id) ∧
    getLastProcessedEvent (dispatchEvent env0 handlerOk 0 "hub1" emptyDb [] ev0).2 "hub1" =
      ev0.id :=
  checkpointSavedOnCommit env0 handlerOk 0 "hub1" emptyDb dispDb [] ev0 (by decide)

/-- C6: over a store whose rows are determined by their hash, the reconciler
invokes the hook once per hub message in batch order, with missing true and
the other flags false exactly when no store row with the message's hash
exists, and otherwise with missing false, pruned set from the stored row's
prunedAt and revoked from its revokedAt; hence an empty store reports every
message missing, and a store holding every message live reports every
message present with all flags false. -/
theorem reconcilerFlags (db : Db) (pages : List (List HubMessage))
    (hu : ∀ r1 ∈ db.messages, ∀ r2 ∈ db.messages, r1.hash = r2.hash → r1 = r2) :
    reconcileMessagesOfTypeForFid db pages = pages.flatten.map (fun m =>
      match db.messages.find? (fun r => decide (r.hash = m.hash)) with
      | none => ⟨m, true, false, false⟩
      | some r => ⟨m, false, r.prunedAt.isSome, r.revokedAt.isSome⟩) ∧
    (db.messages = [] →
      reconcileMessagesOfTypeForFid db pages =
        pages.flatten.map (fun m => ⟨m, true, false, false⟩)) ∧
    ((∀ m ∈ pages.flatten, ∃ r ∈ db.messages,
        r.hash = m.hash ∧ r.prunedAt = none ∧ r.revokedAt = none) →
      reconcileMessagesOfTypeForFid db pages =
        pages.flatten.map (fun m => ⟨m, false, false, false⟩)) := by
  have hbatch : ∀ msgs : List HubMessage, reconcileBatch db msgs = msgs.map (fun m =>
      match db.messages.find? (fun r => decide (r.hash = m.hash)) with
      | none => (⟨m, true, false, false⟩ : ReconcileCall)
      | some r => ⟨m, false, r.prunedAt.isSome, r.revokedAt.isSome⟩) := by
    intro msgs
    unfold reconcileBatch
    cases hng : msgs.isEmpty with
    | true =>
      rw [List.isEmpty_iff.mp hng]
      simp
    | false =>
      rw [if_neg (by simp [hng])]
      refine List.map_congr_left ?_
      intro m hm
      have hsub : (db.messages.filter
            (fun r => msgs.any (fun mm => decide (mm.hash = r.hash)))).filter
            (fun r => decide (r.hash = m.hash)) =
          db.messages.filter (fun r => decide (r.hash = m.hash)) := by
        rw [List.filter_filter]
        refine List.filter_congr ?_
        intro r _
        cases hrh : decide (r.hash = m.hash) with
        | false => simp [hrh]
        | true =>
          have hq : msgs.any (fun mm => decide (mm.hash = r.hash)) = true := by
            rw [List.any_eq_true]
            exact ⟨m, hm, by simp [of_decide_eq_true hrh]⟩
          simp [hrh, hq]
      rw [hsub, filter_getLast?_eq_find? (fun r => decide (r.hash = m.hash)) db.messages
        (fun a ha b hb hpa hpb =>
          hu a ha b hb ((of_decide_eq_true hpa).trans (of_decide_eq_true hpb).symm))]
  have hmain : reconcileMessagesOfTypeForFid db pages = pages.flatten.map (fun m =>
      match db.messages.find? (fun r => decide (r.hash = m.hash)) with
      | none => ⟨m, true, false, false⟩
      | some r => ⟨m, false, r.prunedAt.isSome, r.revokedAt.isSome⟩) := by
    unfold reconcileMessagesOfTypeForFid
    rw [List.map_congr_left (fun msgs _ => hbatch msgs)]
    exact (List.map_flatten _ pages).symm
  refine ⟨hmain, ?_, ?_⟩
  · intro hempty
    rw [hmain]
    refine List.map_congr_left ?_
    intro m _
    rw [hempty]
    rfl
  · intro hall
    rw [hmain]
    refine List.map_congr_left ?_
    intro m hm
    obtain ⟨r, hr, hhash, hp, hrv⟩ := hall m hm
    cases hfind : db.messages.find? (fun r => decide (r.hash = m.hash)) with
    | none =>
      exfalso
      have := List.find?_eq_none.mp hfind r hr
      simp [hhash] at this
    | some r' =>
      have h0 := List.find?_some hfind
      have h1 : r'.hash = m.hash := by simpa using h0
      have h2 : r' ∈ db.messages := List.mem_of_find?_eq_some hfind
      have heq : r' = r := hu r' h2 r hr (h1.trans hhash.symm)
      subst heq
      simp [hp, hrv]

/-- C6 witness: over the concrete store with one live and one pruned row and
a two-page inventory of three messages, the hook fires three times in order
with the flags read off the store. -/
theorem reconcilerFlags_witness :
    reconcileMessagesOfTypeForFid dbRec pagesRec = pagesRec.flatten.map (fun m =>
      match dbRec.messages.find? (fun r => decide (r.hash = m.hash)) with
      | none => ⟨m, true, false, false⟩
      | some r => ⟨m, false, r.prunedAt.isSome, r.revokedAt.isSome⟩) :=
  (reconcilerFlags dbRec pagesRec (by decide)).1

end HubShuttle
